import Mathlib

/-!
Shallow embedding of the doc-link resolver in `crates/hir/src/attrs.rs`
(functions `resolve_doc_path_on_`, `resolve_assoc_or_field`,
`resolve_assoc_item`, `resolve_impl_trait_item`, `resolve_field`,
`as_module_def_if_namespace_matches`, `modpath_from_str`).

External collaborators (the scope index, the syntax parser, trait data,
method resolution, field lists) are modelled as opaque function fields of
an environment record `Db`; the control flow of the resolver itself is
translated function by function from the source.
-/

namespace RA

/-- The three namespaces of `hir_def::per_ns::Namespace`: `Types`, `Values`,
`Macros`. -/
inductive Namespace where
  | types
  | values
  | macros
deriving DecidableEq, Repr

/-- A path-segment name (`hir_expand::name::Name`): either an ordinary
identifier or the synthetic tuple-field index built by
`Name::new_tuple_field`, kept distinct from identifier segments. -/
inductive Name where
  | ident (text : String)
  | tupleField (idx : Nat)
deriving DecidableEq, Repr

/-- The leading-kind of a `hir_def::path::ModPath` (plain, `self`, `super`,
`crate`, absolute). Only carried along here; the resolver never inspects it. -/
inductive PathKind where
  | plain
  | selfKw
  | superKw (lvl : Nat)
  | crateKw
  | absolute
deriving DecidableEq, Repr

/-- `hir_def::path::ModPath`: a path kind plus an ordered list of segments. -/
structure ModPath where
  kind : PathKind
  segments : List Name
deriving DecidableEq, Repr

/-- Modelled from the spec: `ModPath::push_segment` appends a segment at the
end of the path (used by the tuple-field splitter). -/
def ModPath.push_segment (p : ModPath) (n : Name) : ModPath :=
  { p with segments := p.segments ++ [n] }

/-- Modelled from the spec: `ModPath::pop_segment` pops the path's last
segment, returning the popped name together with the remaining prefix path,
or nothing when the path has no segments. -/
def ModPath.pop_segment (p : ModPath) : Option (Name × ModPath) :=
  match p.segments.getLast? with
  | none => none
  | some n => some (n, { p with segments := p.segments.dropLast })

/-- `hir_def::path::Path` as used here: `Path::from_known_path_with_no_generic`
wraps a `ModPath` with no generic arguments. -/
structure Path where
  mod_path : ModPath
deriving DecidableEq, Repr

/-- `Path::from_known_path_with_no_generic`. -/
def Path.from_known_path_with_no_generic (p : ModPath) : Path := ⟨p⟩

/-- Opaque handle for `MacroId`. -/
abbrev MacroId := Nat
/-- Opaque handle for the `ast::Path` node found by the parser. -/
abbrev AstPath := Nat
/-- Opaque handle for `hir_def::resolver::Resolver`. -/
abbrev Resolver := Nat
/-- Opaque handle for a `hir_ty` `Type`. -/
abbrev Ty := Nat
/-- Opaque handle for a `Field`. -/
abbrev FieldId := Nat

/-- `hir_def::ModuleDefId`, the module-level definition identifiers that a
direct path resolution or a member resolution can produce. -/
inductive ModuleDefId where
  | moduleId (id : Nat)
  | functionId (id : Nat)
  | adtId (id : Nat)
  | variantId (id : Nat)
  | constId (id : Nat)
  | staticId (id : Nat)
  | traitId (id : Nat)
  | traitAliasId (id : Nat)
  | typeAliasId (id : Nat)
  | builtinTypeId (id : Nat)
  | macroId (id : MacroId)
deriving DecidableEq, Repr

/-- `hir::Adt`: a struct, union or enum with concrete identity. -/
inductive Adt where
  | struct (id : Nat)
  | union (id : Nat)
  | enum (id : Nat)
deriving DecidableEq, Repr

/-- `hir::VariantDef`: a field-bearing definition (struct, union, or a
specific enum variant). -/
inductive VariantDef where
  | struct (id : Nat)
  | union (id : Nat)
  | variant (id : Nat)
deriving DecidableEq, Repr

/-- `hir_def::resolver::TypeNs`: what a path can resolve to in type
position. -/
inductive TypeNs where
  | selfType (implId : Nat)
  | genericParam (id : Nat)
  | adtId (adt : Adt)
  | adtSelfType (adt : Adt)
  | enumVariantId (id : Nat)
  | typeAliasId (id : Nat)
  | builtinType (id : Nat)
  | traitId (id : Nat)
  | traitAliasId (id : Nat)
deriving DecidableEq, Repr

/-- `hir::AssocItem` (and `AssocItemId`, which converts into it 1-1):
an associated function, constant or type alias. -/
inductive AssocItem where
  | function (id : Nat)
  | const (id : Nat)
  | typeAlias (id : Nat)
deriving DecidableEq, Repr

/-- `hir::DocLinkDef`: the result of doc-path resolution — a module-level
definition or a field. -/
inductive DocLinkDef where
  | moduleDef (d : ModuleDefId)
  | field (f : FieldId)
deriving DecidableEq, Repr

/-- `hir_def::item_scope::ItemInNs`, the per-namespace item wrapper yielded
by `PerNs::iter_items`. -/
inductive ItemInNs where
  | types (d : ModuleDefId)
  | values (d : ModuleDefId)
  | macros (m : MacroId)
deriving DecidableEq, Repr

/-- `hir_def::per_ns::PerNs`: up to one candidate per namespace for a single
resolved path (visibility and import data dropped, as the resolver here never
reads them). -/
structure PerNs where
  types : Option ModuleDefId
  values : Option ModuleDefId
  macros : Option MacroId
deriving DecidableEq, Repr

/-- `PerNs::is_none`: no namespace is populated. -/
def PerNs.is_none (p : PerNs) : Bool :=
  p.types.isNone && p.values.isNone && p.macros.isNone

/-- `PerNs::take_types`. -/
def PerNs.take_types (p : PerNs) : Option ModuleDefId := p.types

/-- `PerNs::take_values`. -/
def PerNs.take_values (p : PerNs) : Option ModuleDefId := p.values

/-- `PerNs::take_macros`. -/
def PerNs.take_macros (p : PerNs) : Option MacroId := p.macros

/-- Modelled from the spec: the first item yielded by `PerNs::iter_items`
(code of this repository outside the excerpt). The spec fixes the iteration
priority as Type, then Value, then Macro. -/
def PerNs.iter_items_first (p : PerNs) : Option ItemInNs :=
  match p.types with
  | some d => some (ItemInNs.types d)
  | none =>
    match p.values with
    | some d => some (ItemInNs.values d)
    | none => p.macros.map ItemInNs.macros

/-- `hir_def::AttrDefId`: the declaration that owns the doc comment. -/
inductive AttrDefId where
  | moduleId (id : Nat)
  | fieldId (id : Nat)
  | adtId (id : Nat)
  | functionId (id : Nat)
  | enumVariantId (id : Nat)
  | staticId (id : Nat)
  | constId (id : Nat)
  | traitId (id : Nat)
  | traitAliasId (id : Nat)
  | typeAliasId (id : Nat)
  | implId (id : Nat)
  | externBlockId (id : Nat)
  | useId (id : Nat)
  | macroId (id : Nat)
  | externCrateId (id : Nat)
  | genericParamId (id : Nat)
deriving DecidableEq, Repr

/-- The environment of external collaborators: the syntax parser, the scope
index (resolver queries), trait data, inherent-item enumeration, method
resolution (path-candidate enumeration) and field lists.  All are opaque to
the resolver logic being verified; the theorems quantify over them. -/
structure Db where
  /-- Parsing `type T = {link};` and taking the first `ast::Path` descendant:
  nothing when no path node is found at all. -/
  parsePath : String → Option AstPath
  /-- `ast_path.syntax().text()`: the re-serialization of the parsed node. -/
  ast_text : AstPath → String
  /-- `ModPath::from_src`, lowering the ast path; may fail. -/
  modPathFromSrc : AstPath → Option ModPath
  /-- The per-owner `.resolver(db)` calls of `resolve_doc_path_on_`. -/
  resolverOf : AttrDefId → Resolver
  /-- `Resolver::resolve_module_path_in_items`. -/
  resolve_module_path_in_items : Resolver → ModPath → PerNs
  /-- `Resolver::resolve_path_in_type_ns_fully`. -/
  resolve_path_in_type_ns_fully : Resolver → Path → Option TypeNs
  /-- `Impl::from(id).self_ty(db)`. -/
  impl_self_ty : Nat → Ty
  /-- `Adt::from(id).ty(db)`. -/
  adt_ty : Adt → Ty
  /-- `alias.as_assoc_item(db).is_some()` for a type alias. -/
  type_alias_is_assoc : Nat → Bool
  /-- `alias.ty(db)` for a non-associated type alias. -/
  type_alias_ty : Nat → Ty
  /-- `BuiltinType::from(id).ty(db)`. -/
  builtin_ty : Nat → Ty
  /-- `db.trait_data(id).items`: the trait's own declared associated items
  (name/item pairs), in declaration order; supertrait items are not listed. -/
  trait_items : Nat → List (Name × AssocItem)
  /-- The enumeration of `ty.iterate_assoc_items(db, krate, ..)`: the type's
  inherent associated items in traversal order. -/
  assoc_items : Ty → List AssocItem
  /-- `assoc_item.name(db)`: associated consts may be unnamed. -/
  assoc_item_name : AssocItem → Option Name
  /-- The enumeration order of `method_resolution::iterate_path_candidates`
  for this type and name, under the resolver's trait environment and
  traits-in-scope (all folded into the opaque query). -/
  path_candidates : Resolver → Ty → Name → List AssocItem
  /-- `ty.as_adt()`. -/
  as_adt : Ty → Option Adt
  /-- `def.fields(db)` for a variant definition. -/
  variant_fields : VariantDef → List FieldId
  /-- `f.name(db)` for a field. -/
  field_name : FieldId → Name

/-- Helper for `rsplitOnceColons`: prefer a split further right (the
recursion on the tail), else check whether the list starts with `::`. -/
def rsplitOnceColonsAux : List Char → Option (List Char × List Char)
  | [] => none
  | c :: rest =>
    match rsplitOnceColonsAux rest with
    | some (a, b) => some (c :: a, b)
    | none =>
      match c, rest with
      | ':', ':' :: rest2 => some ([], rest2)
      | _, _ => none

/-- Modelled from the spec: Rust's `str::rsplit_once("::")` — split at the
last occurrence of `::` into the part before and the part after, or fail
when no `::` occurs. -/
def rsplitOnceColons (s : String) : Option (String × String) :=
  (rsplitOnceColonsAux s.toList).map (fun ab => (String.mk ab.1, String.mk ab.2))

/-- Modelled from the spec: Rust's `str::parse::<usize>()` on the suffix — an
optional leading plus sign, then one or more ASCII digits, with overflow past
the 64-bit unsigned range rejected. -/
def parseUsize (s : String) : Option Nat :=
  let ds : List Char :=
    match s.toList with
    | '+' :: rest => rest
    | cs => cs
  if ds.isEmpty then none
  else if ds.all Char.isDigit then
    let v := ds.foldl (fun acc c => acc * 10 + (c.toNat - 48)) 0
    if v < 18446744073709551616 then some v else none
  else none

/-- The closure `try_get_modpath` inside `modpath_from_str`: parse the link
as a type-position path, reject the parse unless its re-serialization equals
the input exactly, then lower to a `ModPath`. -/
def try_get_modpath (db : Db) (link : String) : Option ModPath :=
  match db.parsePath link with
  | none => none
  | some ast_path =>
    if db.ast_text ast_path ≠ link then none
    else db.modPathFromSrc ast_path

/-- `modpath_from_str`: the full-path parse first; on failure, the
tuple-field fallback — split at the last `::`, parse the suffix as a
non-negative integer, parse the prefix, and append a synthetic tuple-field
segment. -/
def modpath_from_str (db : Db) (link : String) : Option ModPath :=
  let full := try_get_modpath db link
  if full.isSome then full
  else
    match rsplitOnceColons link with
    | none => none
    | some (base, maybe_tuple_field) =>
      match parseUsize maybe_tuple_field with
      | none => none
      | some idx =>
        match try_get_modpath db base with
        | none => none
        | some modpath => some (modpath.push_segment (Name.tupleField idx))

/-- `as_module_def_if_namespace_matches`: the natural namespace is `Values`
for associated functions and constants and `Types` for associated type
aliases; an absent filter defaults to the expected namespace, so the test
succeeds exactly when the filter is absent or agrees. -/
def as_module_def_if_namespace_matches (assoc_item : AssocItem)
    (ns : Option Namespace) : Option DocLinkDef :=
  let p : ModuleDefId × Namespace :=
    match assoc_item with
    | AssocItem.function it => (ModuleDefId.functionId it, Namespace.values)
    | AssocItem.const it => (ModuleDefId.constId it, Namespace.values)
    | AssocItem.typeAlias it => (ModuleDefId.typeAliasId it, Namespace.types)
  if ns.getD p.2 = p.2 then some (DocLinkDef.moduleDef p.1) else none

/-- `resolve_field`: fails at once under a `Types` or `Macros` filter, else
scans the definition's fields for an exact name match. -/
def resolve_field (db : Db) (def_ : VariantDef) (name : Name)
    (ns : Option Namespace) : Option DocLinkDef :=
  match ns with
  | some Namespace.types => none
  | some Namespace.macros => none
  | _ =>
    ((db.variant_fields def_).find? (fun f => db.field_name f = name)).map
      DocLinkDef.field

/-- `resolve_assoc_item`: the first inherent associated item of `ty` whose
name is `name` and whose namespace matches the filter.  The callback of
`ty.iterate_assoc_items` returns `None` to continue, so the iteration is the
first `some` over the enumeration. -/
def resolve_assoc_item (db : Db) (ty : Ty) (name : Name)
    (ns : Option Namespace) : Option DocLinkDef :=
  (db.assoc_items ty).findSome? (fun assoc_item =>
    match db.assoc_item_name assoc_item with
    | none => none
    | some n =>
      if n ≠ name then none
      else as_module_def_if_namespace_matches assoc_item ns)

/-- `resolve_impl_trait_item`: walk the path candidates (trait-provided
items named `name`, under the resolver's environment and traits in scope)
and stop at the first namespace-matching one; the `ControlFlow` callback
overwrites `result` and breaks exactly on the first `some`. -/
def resolve_impl_trait_item (db : Db) (resolver : Resolver) (ty : Ty)
    (name : Name) (ns : Option Namespace) : Option DocLinkDef :=
  (db.path_candidates resolver ty name).findSome? (fun assoc_item_id =>
    as_module_def_if_namespace_matches assoc_item_id ns)

/-- The inline `match` arms of the trait branch of `resolve_assoc_or_field`,
mapping a trait's associated item to its `ModuleDef`. -/
def assocItemToModuleDef : AssocItem → ModuleDefId
  | AssocItem.function it => ModuleDefId.functionId it
  | AssocItem.const it => ModuleDefId.constId it
  | AssocItem.typeAlias it => ModuleDefId.typeAliasId it

/-- The shared tail of `resolve_assoc_or_field` (after the `ty` has been
computed): inherent items first, then trait-provided items, then fields —
and fields only when the type is a struct or union, never an enum. -/
def resolve_assoc_or_field_ty (db : Db) (resolver : Resolver) (ty : Ty)
    (name : Name) (ns : Option Namespace) : Option DocLinkDef :=
  match resolve_assoc_item db ty name ns with
  | some assoc_item_def => some assoc_item_def
  | none =>
    match resolve_impl_trait_item db resolver ty name ns with
    | some impl_trait_item_def => some impl_trait_item_def
    | none =>
      match db.as_adt ty with
      | none => none
      | some (Adt.struct it) => resolve_field db (VariantDef.struct it) name ns
      | some (Adt.union it) => resolve_field db (VariantDef.union it) name ns
      | some (Adt.enum _) => none

/-- `resolve_assoc_or_field`: resolve the prefix strictly in type position,
then branch on the referent kind.  Generic parameters and trait aliases
yield nothing; enum variants get a field lookup only; an associated type
alias yields nothing; a trait gets a lookup among its own declared items
(note: no namespace check there); the remaining kinds produce a type and
fall through to the inherent/trait/field chain. -/
def resolve_assoc_or_field (db : Db) (resolver : Resolver) (path : ModPath)
    (name : Name) (ns : Option Namespace) : Option DocLinkDef :=
  match db.resolve_path_in_type_ns_fully resolver
      (Path.from_known_path_with_no_generic path) with
  | none => none
  | some base_def =>
    match base_def with
    | TypeNs.selfType id =>
      resolve_assoc_or_field_ty db resolver (db.impl_self_ty id) name ns
    | TypeNs.genericParam _ => none
    | TypeNs.adtId adt =>
      resolve_assoc_or_field_ty db resolver (db.adt_ty adt) name ns
    | TypeNs.adtSelfType adt =>
      resolve_assoc_or_field_ty db resolver (db.adt_ty adt) name ns
    | TypeNs.enumVariantId id =>
      resolve_field db (VariantDef.variant id) name ns
    | TypeNs.typeAliasId id =>
      if db.type_alias_is_assoc id then none
      else resolve_assoc_or_field_ty db resolver (db.type_alias_ty id) name ns
    | TypeNs.builtinType id =>
      resolve_assoc_or_field_ty db resolver (db.builtin_ty id) name ns
    | TypeNs.traitId id =>
      ((db.trait_items id).find? (fun it => it.1 = name)).map (fun it =>
        DocLinkDef.moduleDef (assocItemToModuleDef it.2))
    | TypeNs.traitAliasId _ => none

/-- The resolver-construction `match` at the top of `resolve_doc_path_on_`:
every attribute owner yields its resolver, except a generic parameter, for
which the function returns early with no result. -/
def attrResolver (db : Db) (attr_id : AttrDefId) : Option Resolver :=
  match attr_id with
  | AttrDefId.moduleId _ => some (db.resolverOf attr_id)
  | AttrDefId.fieldId _ => some (db.resolverOf attr_id)
  | AttrDefId.adtId _ => some (db.resolverOf attr_id)
  | AttrDefId.functionId _ => some (db.resolverOf attr_id)
  | AttrDefId.enumVariantId _ => some (db.resolverOf attr_id)
  | AttrDefId.staticId _ => some (db.resolverOf attr_id)
  | AttrDefId.constId _ => some (db.resolverOf attr_id)
  | AttrDefId.traitId _ => some (db.resolverOf attr_id)
  | AttrDefId.traitAliasId _ => some (db.resolverOf attr_id)
  | AttrDefId.typeAliasId _ => some (db.resolverOf attr_id)
  | AttrDefId.implId _ => some (db.resolverOf attr_id)
  | AttrDefId.externBlockId _ => some (db.resolverOf attr_id)
  | AttrDefId.useId _ => some (db.resolverOf attr_id)
  | AttrDefId.macroId _ => some (db.resolverOf attr_id)
  | AttrDefId.externCrateId _ => some (db.resolverOf attr_id)
  | AttrDefId.genericParamId _ => none

/-- The namespace selection of the direct-resolution branch of
`resolve_doc_path_on_`: the filtered slot when a filter is given, else the
first item of `PerNs::iter_items`. -/
def directNsSelect (resolved : PerNs) (ns : Option Namespace) :
    Option ModuleDefId :=
  match ns with
  | some Namespace.types => resolved.take_types
  | some Namespace.values => resolved.take_values
  | some Namespace.macros => resolved.take_macros.map ModuleDefId.macroId
  | none =>
    resolved.iter_items_first.map (fun it =>
      match it with
      | ItemInNs.types d => d
      | ItemInNs.values d => d
      | ItemInNs.macros m => ModuleDefId.macroId m)

/-- `resolve_doc_path_on_`, the orchestrator: build the owner's resolver
(failing for generic parameters), parse the link, and either return the
direct path resolution (when the path resolves in at least one namespace)
or pop the last segment and resolve it as a member of the prefix. -/
def resolve_doc_path_on_ (db : Db) (link : String) (attr_id : AttrDefId)
    (ns : Option Namespace) : Option DocLinkDef :=
  match attrResolver db attr_id with
  | none => none
  | some resolver =>
    match modpath_from_str db link with
    | none => none
    | some modpath =>
      let resolved := db.resolve_module_path_in_items resolver modpath
      if resolved.is_none then
        match modpath.pop_segment with
        | none => none
        | some (last_name, rest) =>
          resolve_assoc_or_field db resolver rest last_name ns
      else
        (directNsSelect resolved ns).map DocLinkDef.moduleDef

/-- Modelled from the spec: every resolvable item has exactly one natural
namespace — type-like definitions inhabit `Types`, functions, constants and
statics inhabit `Values`, macros inhabit `Macros`. -/
def defNaturalNs : ModuleDefId → Namespace
  | ModuleDefId.moduleId _ => Namespace.types
  | ModuleDefId.functionId _ => Namespace.values
  | ModuleDefId.adtId _ => Namespace.types
  | ModuleDefId.variantId _ => Namespace.types
  | ModuleDefId.constId _ => Namespace.values
  | ModuleDefId.staticId _ => Namespace.values
  | ModuleDefId.traitId _ => Namespace.types
  | ModuleDefId.traitAliasId _ => Namespace.types
  | ModuleDefId.typeAliasId _ => Namespace.types
  | ModuleDefId.builtinTypeId _ => Namespace.types
  | ModuleDefId.macroId _ => Namespace.macros

/-- Modelled from the spec: the natural namespace of a resolution result;
fields are treated as inhabiting `Value`. -/
def docLinkNaturalNs : DocLinkDef → Namespace
  | DocLinkDef.moduleDef d => defNaturalNs d
  | DocLinkDef.field _ => Namespace.values

/-- Well-formedness of one `PerNs` record: each namespace slot holds only a
definition whose natural namespace is that slot's namespace. -/
def PerNsWF (p : PerNs) : Prop :=
  (∀ d, p.types = some d → defNaturalNs d = Namespace.types) ∧
  (∀ d, p.values = some d → defNaturalNs d = Namespace.values)

/-- Well-formedness of the scope index: every direct path resolution
populates its namespace slots consistently with the natural namespaces. -/
def DbWF (db : Db) : Prop :=
  ∀ resolver modpath, PerNsWF (db.resolve_module_path_in_items resolver modpath)

/-- The type computed by `resolve_assoc_or_field` for the referent kinds
that fall through to the inherent/trait/field chain; `none` for the kinds
with early returns. -/
def referent_ty (db : Db) : TypeNs → Option Ty
  | TypeNs.selfType id => some (db.impl_self_ty id)
  | TypeNs.genericParam _ => none
  | TypeNs.adtId adt => some (db.adt_ty adt)
  | TypeNs.adtSelfType adt => some (db.adt_ty adt)
  | TypeNs.enumVariantId _ => none
  | TypeNs.typeAliasId id =>
    if db.type_alias_is_assoc id then none else some (db.type_alias_ty id)
  | TypeNs.builtinType id => some (db.builtin_ty id)
  | TypeNs.traitId _ => none
  | TypeNs.traitAliasId _ => none

/-- The member-resolution path of `resolve_doc_path_on_` reached the branch
where the prefix resolves in type position to a trait. -/
def TraitPrefixTaken (db : Db) (link : String) (attr_id : AttrDefId) : Prop :=
  ∃ resolver modpath last_name rest t,
    attrResolver db attr_id = some resolver ∧
    modpath_from_str db link = some modpath ∧
    (db.resolve_module_path_in_items resolver modpath).is_none = true ∧
    modpath.pop_segment = some (last_name, rest) ∧
    db.resolve_path_in_type_ns_fully resolver
      (Path.from_known_path_with_no_generic rest) = some (TypeNs.traitId t)

/-- The empty per-namespace result: the path resolves nowhere. -/
def emptyPerNs : PerNs := ⟨none, none, none⟩

/-- A base environment in which nothing parses and nothing resolves;
concrete scenarios override individual fields. -/
def dbBase : Db where
  parsePath := fun _ => none
  ast_text := fun _ => ""
  modPathFromSrc := fun _ => none
  resolverOf := fun _ => 0
  resolve_module_path_in_items := fun _ _ => emptyPerNs
  resolve_path_in_type_ns_fully := fun _ _ => none
  impl_self_ty := fun _ => 0
  adt_ty := fun _ => 0
  type_alias_is_assoc := fun _ => false
  type_alias_ty := fun _ => 0
  builtin_ty := fun _ => 0
  trait_items := fun _ => []
  assoc_items := fun _ => []
  assoc_item_name := fun _ => none
  path_candidates := fun _ _ _ => []
  as_adt := fun _ => none
  variant_fields := fun _ => []
  field_name := fun _ => Name.ident ""

/-- Scenario: link `T::f` where the prefix `T` resolves in type position to
a trait declaring an associated function `f`. -/
def db1 : Db :=
  { dbBase with
    parsePath := fun s => if s = "T::f" then some 1 else none
    ast_text := fun p => if p = 1 then "T::f" else ""
    modPathFromSrc := fun p =>
      if p = 1 then some ⟨PathKind.plain, [Name.ident "T", Name.ident "f"]⟩
      else none
    resolve_path_in_type_ns_fully := fun _ p =>
      if p = ⟨⟨PathKind.plain, [Name.ident "T"]⟩⟩ then some (TypeNs.traitId 0)
      else none
    trait_items := fun t =>
      if t = 0 then [(Name.ident "f", AssocItem.function 7)] else [] }

/-- Scenario: link `S::f` where the prefix `S` resolves in type position to
a struct with an inherent associated function `f`. -/
def dbW1 : Db :=
  { dbBase with
    parsePath := fun s => if s = "S::f" then some 1 else none
    ast_text := fun p => if p = 1 then "S::f" else ""
    modPathFromSrc := fun p =>
      if p = 1 then some ⟨PathKind.plain, [Name.ident "S", Name.ident "f"]⟩
      else none
    resolve_path_in_type_ns_fully := fun _ p =>
      if p = ⟨⟨PathKind.plain, [Name.ident "S"]⟩⟩ then
        some (TypeNs.adtId (Adt.struct 0))
      else none
    adt_ty := fun _ => 5
    assoc_items := fun ty => if ty = 5 then [AssocItem.function 1] else []
    assoc_item_name := fun a =>
      match a with
      | AssocItem.function 1 => some (Name.ident "f")
      | _ => none }

/-- Scenario: the full link `S::f` resolves directly, but only in the type
namespace; the prefix `S` would also support member resolution of `f`. -/
def db2 : Db :=
  { dbW1 with
    resolve_module_path_in_items := fun _ mp =>
      if mp = ⟨PathKind.plain, [Name.ident "S", Name.ident "f"]⟩ then
        ⟨some (ModuleDefId.adtId 9), none, none⟩
      else emptyPerNs }

/-- Scenario: link `X` resolves directly in all three namespaces. -/
def db3 : Db :=
  { dbBase with
    parsePath := fun s => if s = "X" then some 3 else none
    ast_text := fun p => if p = 3 then "X" else ""
    modPathFromSrc := fun p =>
      if p = 3 then some ⟨PathKind.plain, [Name.ident "X"]⟩ else none
    resolve_module_path_in_items := fun _ mp =>
      if mp = ⟨PathKind.plain, [Name.ident "X"]⟩ then
        ⟨some (ModuleDefId.adtId 3), some (ModuleDefId.functionId 4), some 5⟩
      else emptyPerNs }

/-- Scenario: the parse of `ab` finds a path node that re-serializes to
just `a` (a partial parse). -/
def db6 : Db :=
  { dbBase with
    parsePath := fun s => if s = "ab" then some 0 else none
    ast_text := fun _ => "a"
    modPathFromSrc := fun _ => some ⟨PathKind.plain, [Name.ident "a"]⟩ }

/-- Scenario: `Point` is a tuple struct with two fields `0` and `1`; the
parser finds the `Point` node inside any `Point::…` link text. -/
def db7 : Db :=
  { dbBase with
    parsePath := fun s =>
      if s = "Point" ∨ s = "Point::0" ∨ s = "Point::5" ∨ s = "Point::x" then
        some 4
      else none
    ast_text := fun p => if p = 4 then "Point" else ""
    modPathFromSrc := fun p =>
      if p = 4 then some ⟨PathKind.plain, [Name.ident "Point"]⟩ else none
    resolve_path_in_type_ns_fully := fun _ p =>
      if p = ⟨⟨PathKind.plain, [Name.ident "Point"]⟩⟩ then
        some (TypeNs.adtId (Adt.struct 0))
      else none
    adt_ty := fun _ => 6
    as_adt := fun ty => if ty = 6 then some (Adt.struct 0) else none
    variant_fields := fun vd =>
      if vd = VariantDef.struct 0 then [70, 71] else []
    field_name := fun f =>
      if f = 70 then Name.tupleField 0
      else if f = 71 then Name.tupleField 1
      else Name.ident "" }

/-- Scenario: the prefix `V` resolves in type position to an enum variant. -/
def db8 : Db :=
  { dbBase with
    resolve_path_in_type_ns_fully := fun _ p =>
      if p = ⟨⟨PathKind.plain, [Name.ident "V"]⟩⟩ then
        some (TypeNs.enumVariantId 4)
      else none }

/-- Scenario: the prefix `G` resolves in type position to a generic
parameter. -/
def db9 : Db :=
  { dbBase with
    resolve_path_in_type_ns_fully := fun _ p =>
      if p = ⟨⟨PathKind.plain, [Name.ident "G"]⟩⟩ then
        some (TypeNs.genericParam 0)
      else none }

/-- A successful namespace-checked conversion under a filter yields a
module definition whose natural namespace is the filter's namespace. -/
theorem amdinm_some {item : AssocItem} {n : Namespace} {d : DocLinkDef}
    (h : as_module_def_if_namespace_matches item (some n) = some d) :
    ∃ m, d = DocLinkDef.moduleDef m ∧ defNaturalNs m = n := by
  cases item <;>
    simp only [as_module_def_if_namespace_matches, Option.getD_some] at h <;>
    split at h <;>
    simp only [Option.some.injEq, reduceCtorEq] at h <;>
    subst h <;>
    exact ⟨_, rfl, by simp_all [defNaturalNs]⟩

/-- A successful inherent-item search under a filter yields a module
definition whose natural namespace is the filter's namespace. -/
theorem resolve_assoc_item_ns {db : Db} {ty : Ty} {name : Name}
    {n : Namespace} {d : DocLinkDef}
    (h : resolve_assoc_item db ty name (some n) = some d) :
    ∃ m, d = DocLinkDef.moduleDef m ∧ defNaturalNs m = n := by
  unfold resolve_assoc_item at h
  obtain ⟨l₁, a, l₂, -, ha, -⟩ := List.findSome?_eq_some_iff.mp h
  split at ha
  · exact absurd ha (by simp)
  · split at ha
    · exact absurd ha (by simp)
    · exact amdinm_some ha

/-- A successful trait-provided-item search under a filter yields a module
definition whose natural namespace is the filter's namespace. -/
theorem resolve_impl_trait_item_ns {db : Db} {resolver : Resolver} {ty : Ty}
    {name : Name} {n : Namespace} {d : DocLinkDef}
    (h : resolve_impl_trait_item db resolver ty name (some n) = some d) :
    ∃ m, d = DocLinkDef.moduleDef m ∧ defNaturalNs m = n := by
  unfold resolve_impl_trait_item at h
  obtain ⟨l₁, a, l₂, -, ha, -⟩ := List.findSome?_eq_some_iff.mp h
  exact amdinm_some ha

/-- A successful field search under a filter forces the filter to be the
value namespace, and the result to be a field. -/
theorem resolve_field_ns {db : Db} {vd : VariantDef} {name : Name}
    {n : Namespace} {d : DocLinkDef}
    (h : resolve_field db vd name (some n) = some d) :
    n = Namespace.values ∧ ∃ f, d = DocLinkDef.field f := by
  cases n <;> simp only [resolve_field] at h
  · exact absurd h (by simp)
  · refine ⟨rfl, ?_⟩
    obtain ⟨f, -, rfl⟩ := Option.map_eq_some'.mp h
    exact ⟨f, rfl⟩
  · exact absurd h (by simp)

/-- A successful field search yields a field result, never a module
definition. -/
theorem resolve_field_is_field {db : Db} {vd : VariantDef} {name : Name}
    {ns : Option Namespace} {d : DocLinkDef}
    (h : resolve_field db vd name ns = some d) :
    ∃ f, d = DocLinkDef.field f := by
  unfold resolve_field at h
  split at h
  · exact absurd h (by simp)
  · exact absurd h (by simp)
  · obtain ⟨f, -, rfl⟩ := Option.map_eq_some'.mp h
    exact ⟨f, rfl⟩

/-- A successful run of the inherent/trait/field chain under a filter
yields a result whose natural namespace is the filter's namespace. -/
theorem resolve_assoc_or_field_ty_ns {db : Db} {resolver : Resolver}
    {ty : Ty} {name : Name} {n : Namespace} {d : DocLinkDef}
    (h : resolve_assoc_or_field_ty db resolver ty name (some n) = some d) :
    docLinkNaturalNs d = n := by
  unfold resolve_assoc_or_field_ty at h
  split at h
  next a heq =>
    injection h with h
    subst h
    obtain ⟨m, rfl, hm⟩ := resolve_assoc_item_ns heq
    simpa [docLinkNaturalNs] using hm
  next =>
    split at h
    next a heq =>
      injection h with h
      subst h
      obtain ⟨m, rfl, hm⟩ := resolve_impl_trait_item_ns heq
      simpa [docLinkNaturalNs] using hm
    next =>
      split at h
      · exact absurd h (by simp)
      · obtain ⟨rfl, f, rfl⟩ := resolve_field_ns h
        rfl
      · obtain ⟨rfl, f, rfl⟩ := resolve_field_ns h
        rfl
      · exact absurd h (by simp)

/-- A successful member resolution under a filter either honors the filter's
namespace or went through the trait branch. -/
theorem resolve_assoc_or_field_ns {db : Db} {resolver : Resolver}
    {p : ModPath} {name : Name} {n : Namespace} {d : DocLinkDef}
    (h : resolve_assoc_or_field db resolver p name (some n) = some d) :
    docLinkNaturalNs d = n ∨
      ∃ t, db.resolve_path_in_type_ns_fully resolver
        (Path.from_known_path_with_no_generic p) = some (TypeNs.traitId t) := by
  unfold resolve_assoc_or_field at h
  split at h
  · exact absurd h (by simp)
  next base_def heq =>
    split at h
    · exact Or.inl (resolve_assoc_or_field_ty_ns h)
    · exact absurd h (by simp)
    · exact Or.inl (resolve_assoc_or_field_ty_ns h)
    · exact Or.inl (resolve_assoc_or_field_ty_ns h)
    · obtain ⟨rfl, f, rfl⟩ := resolve_field_ns h
      exact Or.inl rfl
    · split at h
      · exact absurd h (by simp)
      · exact Or.inl (resolve_assoc_or_field_ty_ns h)
    · exact Or.inl (resolve_assoc_or_field_ty_ns h)
    · exact Or.inr ⟨_, heq⟩
    · exact absurd h (by simp)

/-- A successful full-path parse is what `modpath_from_str` returns. -/
theorem modpath_from_str_of_full {db : Db} {link : String} {mp : ModPath}
    (h : try_get_modpath db link = some mp) :
    modpath_from_str db link = some mp := by
  unfold modpath_from_str
  simp [h]

/-- Popping after pushing a segment returns the pushed segment and the
original path. -/
theorem pop_push (p : ModPath) (n : Name) :
    (p.push_segment n).pop_segment = some (n, p) := by
  simp [ModPath.push_segment, ModPath.pop_segment]

/-- The empty per-namespace record is well formed. -/
theorem perNsWF_empty : PerNsWF emptyPerNs :=
  ⟨fun _ h => by simp [emptyPerNs] at h, fun _ h => by simp [emptyPerNs] at h⟩

/-- The trait scenario's scope index is well formed (it resolves no direct
path at all). -/
theorem db1_wf : DbWF db1 := fun _ _ => perNsWF_empty

/-- The inherent-item scenario's scope index is well formed. -/
theorem dbW1_wf : DbWF dbW1 := fun _ _ => perNsWF_empty

/-- Characterization of the orchestrator once the owner's resolver exists
and the link parses: the direct-resolution branch runs unless the path
resolves in no namespace at all, in which case the last segment is popped
and resolved as a member. -/
theorem resolve_doc_path_on_eq (db : Db) (resolver : Resolver) (link : String)
    (mp : ModPath) (attr_id : AttrDefId) (ns : Option Namespace)
    (hres : attrResolver db attr_id = some resolver)
    (hmp : modpath_from_str db link = some mp) :
    resolve_doc_path_on_ db link attr_id ns =
      if (db.resolve_module_path_in_items resolver mp).is_none then
        match mp.pop_segment with
        | none => none
        | some (last_name, rest) =>
          resolve_assoc_or_field db resolver rest last_name ns
      else
        (directNsSelect (db.resolve_module_path_in_items resolver mp) ns).map
          DocLinkDef.moduleDef := by
  unfold resolve_doc_path_on_
  rw [hres, hmp]

/-- The orchestrator fails when the owner is a generic parameter or the
link does not parse. -/
theorem resolve_doc_path_on_none (db : Db) (link : String)
    (attr_id : AttrDefId) (ns : Option Namespace) :
    (attrResolver db attr_id = none →
      resolve_doc_path_on_ db link attr_id ns = none) ∧
    (modpath_from_str db link = none →
      resolve_doc_path_on_ db link attr_id ns = none) := by
  constructor
  · intro hres
    unfold resolve_doc_path_on_
    rw [hres]
  · intro hmp
    unfold resolve_doc_path_on_
    cases attrResolver db attr_id
    · rfl
    · rw [hmp]

/-- C10: when the declaration owning the doc comment is a generic parameter,
resolution returns no result, for every link text, every filter and every
environment — in particular even for environments in which the link would
parse and resolve, showing the early return happens before any parsing or
lookup. -/
theorem C10_generic_param_owner (db : Db) (link : String)
    (ns : Option Namespace) (g : Nat) :
    resolve_doc_path_on_ db link (AttrDefId.genericParamId g) ns = none := by
  simp [resolve_doc_path_on_, attrResolver]

/-- C6: the path parser returns a path only when the parsed fragment
re-serializes exactly to the input text, and whenever a fragment parses but
re-serializes differently (trailing garbage, partial parse), the parser
yields nothing. -/
theorem C6_roundtrip (db : Db) (link : String) :
    (∀ mp, try_get_modpath db link = some mp →
      ∃ p, db.parsePath link = some p ∧ db.ast_text p = link) ∧
    (∀ p, db.parsePath link = some p → db.ast_text p ≠ link →
      try_get_modpath db link = none) := by
  constructor
  · intro mp h
    unfold try_get_modpath at h
    split at h
    · exact absurd h (by simp)
    next p hp =>
      refine ⟨p, hp, ?_⟩
      by_contra hne
      simp [hne] at h
  · intro p hp hne
    unfold try_get_modpath
    simp [hp, hne]

/-- Witness for C6: the parser rejects `ab` when the parsed fragment
re-serializes to just `a`. -/
theorem C6_roundtrip_witness : try_get_modpath db6 "ab" = none :=
  (C6_roundtrip db6 "ab").2 0 (by decide) (by decide)

/-- C5: when the prefix resolves in type position to a trait, the result is
exactly the first of the trait's own declared associated items carrying the
requested name — so any result comes from the trait's own item list, matched
by exact name, and supertrait-only items (absent from that list) are never
returned. -/
theorem C5_trait_own_items (db : Db) (resolver : Resolver) (p : ModPath)
    (name : Name) (ns : Option Namespace) (t : Nat)
    (h : db.resolve_path_in_type_ns_fully resolver
      (Path.from_known_path_with_no_generic p) = some (TypeNs.traitId t)) :
    resolve_assoc_or_field db resolver p name ns =
      ((db.trait_items t).find? (fun it => it.1 = name)).map (fun it =>
        DocLinkDef.moduleDef (assocItemToModuleDef it.2)) ∧
    ∀ d, resolve_assoc_or_field db resolver p name ns = some d →
      ∃ it, it ∈ db.trait_items t ∧ it.1 = name ∧
        d = DocLinkDef.moduleDef (assocItemToModuleDef it.2) := by
  have heq : resolve_assoc_or_field db resolver p name ns =
      ((db.trait_items t).find? (fun it => it.1 = name)).map (fun it =>
        DocLinkDef.moduleDef (assocItemToModuleDef it.2)) := by
    unfold resolve_assoc_or_field
    rw [h]
  refine ⟨heq, fun d hd => ?_⟩
  rw [heq] at hd
  obtain ⟨it, hfind, rfl⟩ := Option.map_eq_some'.mp hd
  have hmem := List.mem_of_find?_eq_some hfind
  have hpred := List.find?_some hfind
  simp only [decide_eq_true_eq] at hpred
  exact ⟨it, hmem, hpred, rfl⟩

/-- Witness for C5: in the trait scenario, `T::f` member resolution returns
the trait's own associated function `f`. -/
theorem C5_trait_own_items_witness :
    resolve_assoc_or_field db1 0 ⟨PathKind.plain, [Name.ident "T"]⟩
      (Name.ident "f") (some Namespace.types) =
      some (DocLinkDef.moduleDef (ModuleDefId.functionId 7)) := by
  rw [(C5_trait_own_items db1 0 ⟨PathKind.plain, [Name.ident "T"]⟩
    (Name.ident "f") (some Namespace.types) 0 (by decide)).1]
  decide

/-- C9: member resolution yields a plain absent result (the same `none` as
every other failure) whenever the prefix resolves in type position to a
generic parameter, a trait alias, or an associated type alias. -/
theorem C9_unsupported_referents (db : Db) (resolver : Resolver)
    (p : ModPath) (name : Name) (ns : Option Namespace) :
    (∀ g, db.resolve_path_in_type_ns_fully resolver
        (Path.from_known_path_with_no_generic p) = some (TypeNs.genericParam g) →
      resolve_assoc_or_field db resolver p name ns = none) ∧
    (∀ t, db.resolve_path_in_type_ns_fully resolver
        (Path.from_known_path_with_no_generic p) = some (TypeNs.traitAliasId t) →
      resolve_assoc_or_field db resolver p name ns = none) ∧
    (∀ a, db.resolve_path_in_type_ns_fully resolver
        (Path.from_known_path_with_no_generic p) = some (TypeNs.typeAliasId a) →
      db.type_alias_is_assoc a = true →
      resolve_assoc_or_field db resolver p name ns = none) := by
  refine ⟨fun g hg => ?_, fun t ht => ?_, fun a ha hassoc => ?_⟩ <;>
    unfold resolve_assoc_or_field <;> simp_all

/-- Witness for C9: a prefix resolving to a generic parameter yields no
member. -/
theorem C9_unsupported_referents_witness :
    resolve_assoc_or_field db9 0 ⟨PathKind.plain, [Name.ident "G"]⟩
      (Name.ident "x") none = none :=
  (C9_unsupported_referents db9 0 ⟨PathKind.plain, [Name.ident "G"]⟩
    (Name.ident "x") none).1 0 (by decide)

/-- C8: a prefix resolving to an enum variant gets only a field lookup on
that variant — hence a field result or nothing, never a declaration-kind
associated item — and the whole-type field-search step runs only for structs
and unions, never for an enum as a whole. -/
theorem C8_enum_variant_restriction :
    (∀ (db : Db) (resolver : Resolver) (p : ModPath) (name : Name)
        (ns : Option Namespace) (v : Nat),
      db.resolve_path_in_type_ns_fully resolver
          (Path.from_known_path_with_no_generic p) =
          some (TypeNs.enumVariantId v) →
      resolve_assoc_or_field db resolver p name ns =
        resolve_field db (VariantDef.variant v) name ns) ∧
    (∀ (db : Db) (vd : VariantDef) (name : Name) (ns : Option Namespace)
        (d : DocLinkDef), resolve_field db vd name ns = some d →
      ∃ f, d = DocLinkDef.field f) ∧
    (∀ (db : Db) (resolver : Resolver) (ty : Ty) (name : Name)
        (ns : Option Namespace) (e : Nat),
      db.as_adt ty = some (Adt.enum e) →
      resolve_assoc_item db ty name ns = none →
      resolve_impl_trait_item db resolver ty name ns = none →
      resolve_assoc_or_field_ty db resolver ty name ns = none) := by
  refine ⟨fun db resolver p name ns v hv => ?_,
    fun db vd name ns d hd => resolve_field_is_field hd,
    fun db resolver ty name ns e he h1 h2 => ?_⟩
  · unfold resolve_assoc_or_field
    rw [hv]
  · unfold resolve_assoc_or_field_ty
    rw [h1, h2, he]

/-- Witness for C8: a prefix resolving to an enum variant delegates to the
field lookup on that variant. -/
theorem C8_enum_variant_restriction_witness :
    resolve_assoc_or_field db8 0 ⟨PathKind.plain, [Name.ident "V"]⟩
      (Name.ident "x") none =
      resolve_field db8 (VariantDef.variant 4) (Name.ident "x") none :=
  C8_enum_variant_restriction.1 db8 0 ⟨PathKind.plain, [Name.ident "V"]⟩
    (Name.ident "x") none 4 (by decide)

/-- C4: for a referent of kind self type, ADT instance, non-associated type
alias, or builtin type, member resolution runs the inherent search, then the
trait-provided search, then the field search, and the first search that
accepts a candidate determines the result; in particular an inherent item
wins over a same-named trait-provided item. -/
theorem C4_inherent_before_trait (db : Db) (resolver : Resolver)
    (p : ModPath) (name : Name) (ns : Option Namespace) (bd : TypeNs) (ty : Ty)
    (hbd : db.resolve_path_in_type_ns_fully resolver
      (Path.from_known_path_with_no_generic p) = some bd)
    (hty : referent_ty db bd = some ty) :
    (∀ d, resolve_assoc_item db ty name ns = some d →
      resolve_assoc_or_field db resolver p name ns = some d) ∧
    (∀ d, resolve_assoc_item db ty name ns = none →
      resolve_impl_trait_item db resolver ty name ns = some d →
      resolve_assoc_or_field db resolver p name ns = some d) ∧
    (resolve_assoc_item db ty name ns = none →
      resolve_impl_trait_item db resolver ty name ns = none →
      resolve_assoc_or_field db resolver p name ns =
        match db.as_adt ty with
        | none => none
        | some (Adt.struct it) => resolve_field db (VariantDef.struct it) name ns
        | some (Adt.union it) => resolve_field db (VariantDef.union it) name ns
        | some (Adt.enum _) => none) := by
  have hdeleg : resolve_assoc_or_field db resolver p name ns =
      resolve_assoc_or_field_ty db resolver ty name ns := by
    unfold resolve_assoc_or_field
    rw [hbd]
    cases bd
    · simp only [referent_ty, Option.some.injEq] at hty
      subst hty
      rfl
    · simp [referent_ty] at hty
    · simp only [referent_ty, Option.some.injEq] at hty
      subst hty
      rfl
    · simp only [referent_ty, Option.some.injEq] at hty
      subst hty
      rfl
    · simp [referent_ty] at hty
    · simp only [referent_ty] at hty
      split at hty
      · exact absurd hty (by simp)
      next hc =>
        simp only [Option.some.injEq] at hty
        subst hty
        simp [hc]
    · simp only [referent_ty, Option.some.injEq] at hty
      subst hty
      rfl
    · simp [referent_ty] at hty
    · simp [referent_ty] at hty
  refine ⟨fun d hd => ?_, fun d h1 h2 => ?_, fun h1 h2 => ?_⟩
  · rw [hdeleg]
    unfold resolve_assoc_or_field_ty
    rw [hd]
  · rw [hdeleg]
    unfold resolve_assoc_or_field_ty
    rw [h1, h2]
  · rw [hdeleg]
    unfold resolve_assoc_or_field_ty
    rw [h1, h2]

/-- Witness for C4: in the inherent-item scenario, the inherent function `f`
on struct `S` is returned. -/
theorem C4_inherent_before_trait_witness :
    resolve_assoc_or_field dbW1 0 ⟨PathKind.plain, [Name.ident "S"]⟩
      (Name.ident "f") (some Namespace.values) =
      some (DocLinkDef.moduleDef (ModuleDefId.functionId 1)) :=
  (C4_inherent_before_trait dbW1 0 ⟨PathKind.plain, [Name.ident "S"]⟩
    (Name.ident "f") (some Namespace.values) (TypeNs.adtId (Adt.struct 0)) 5
    (by decide) (by decide)).1
    (DocLinkDef.moduleDef (ModuleDefId.functionId 1)) (by decide)

/-- C2 (amended): for an ordinary link text that parses in full, the direct
path resolution is returned (after namespace selection, which may itself
come up empty and then yields no result) whenever the path resolves in at
least one namespace; member-style resolution of the popped last segment is
attempted only when the path resolves in no namespace at all. -/
theorem C2_direct_priority (db : Db) (resolver : Resolver) (link : String)
    (mp : ModPath) (attr_id : AttrDefId) (ns : Option Namespace)
    (hres : attrResolver db attr_id = some resolver)
    (hfull : try_get_modpath db link = some mp) :
    resolve_doc_path_on_ db link attr_id ns =
      if (db.resolve_module_path_in_items resolver mp).is_none then
        match mp.pop_segment with
        | none => none
        | some (last_name, rest) =>
          resolve_assoc_or_field db resolver rest last_name ns
      else
        (directNsSelect (db.resolve_module_path_in_items resolver mp) ns).map
          DocLinkDef.moduleDef :=
  resolve_doc_path_on_eq db resolver link mp attr_id ns hres
    (modpath_from_str_of_full hfull)

/-- Counterexample for C2 as stated: the full link `S::f` resolves directly
but only in the type namespace while the filter asks for values;
member-style resolution on the popped prefix would succeed, yet resolution
returns nothing without attempting it. -/
theorem C2_counterexample :
    resolve_doc_path_on_ db2 "S::f" (AttrDefId.moduleId 0)
        (some Namespace.values) = none ∧
    try_get_modpath db2 "S::f" =
      some ⟨PathKind.plain, [Name.ident "S", Name.ident "f"]⟩ ∧
    (db2.resolve_module_path_in_items 0
      ⟨PathKind.plain, [Name.ident "S", Name.ident "f"]⟩).is_none = false ∧
    ModPath.pop_segment ⟨PathKind.plain, [Name.ident "S", Name.ident "f"]⟩ =
      some (Name.ident "f", ⟨PathKind.plain, [Name.ident "S"]⟩) ∧
    resolve_assoc_or_field db2 0 ⟨PathKind.plain, [Name.ident "S"]⟩
      (Name.ident "f") (some Namespace.values) =
      some (DocLinkDef.moduleDef (ModuleDefId.functionId 1)) := by
  decide

/-- Witness for C2: the characterization applied to the scenario where the
direct resolution is populated only in the type namespace. -/
theorem C2_direct_priority_witness :
    resolve_doc_path_on_ db2 "S::f" (AttrDefId.moduleId 0)
        (some Namespace.values) =
      if (db2.resolve_module_path_in_items 0
          ⟨PathKind.plain, [Name.ident "S", Name.ident "f"]⟩).is_none then
        match ModPath.pop_segment
            ⟨PathKind.plain, [Name.ident "S", Name.ident "f"]⟩ with
        | none => none
        | some (last_name, rest) =>
          resolve_assoc_or_field db2 0 rest last_name (some Namespace.values)
      else
        (directNsSelect (db2.resolve_module_path_in_items 0
            ⟨PathKind.plain, [Name.ident "S", Name.ident "f"]⟩)
          (some Namespace.values)).map DocLinkDef.moduleDef :=
  C2_direct_priority db2 0 "S::f"
    ⟨PathKind.plain, [Name.ident "S", Name.ident "f"]⟩
    (AttrDefId.moduleId 0) (some Namespace.values) (by decide) (by decide)

/-- C3: with no filter, a path that resolves directly returns the
type-namespace candidate when present, else the value-namespace candidate,
else the macro-namespace candidate. -/
theorem C3_priority_order (db : Db) (resolver : Resolver) (link : String)
    (mp : ModPath) (attr_id : AttrDefId)
    (hres : attrResolver db attr_id = some resolver)
    (hmp : modpath_from_str db link = some mp) :
    (∀ t, (db.resolve_module_path_in_items resolver mp).types = some t →
      resolve_doc_path_on_ db link attr_id none =
        some (DocLinkDef.moduleDef t)) ∧
    ((db.resolve_module_path_in_items resolver mp).types = none →
      ∀ v, (db.resolve_module_path_in_items resolver mp).values = some v →
      resolve_doc_path_on_ db link attr_id none =
        some (DocLinkDef.moduleDef v)) ∧
    ((db.resolve_module_path_in_items resolver mp).types = none →
      (db.resolve_module_path_in_items resolver mp).values = none →
      ∀ m, (db.resolve_module_path_in_items resolver mp).macros = some m →
      resolve_doc_path_on_ db link attr_id none =
        some (DocLinkDef.moduleDef (ModuleDefId.macroId m))) := by
  refine ⟨fun t ht => ?_, fun h0 v hv => ?_, fun h0 h1 m hm => ?_⟩ <;>
    rw [resolve_doc_path_on_eq db resolver link mp attr_id none hres hmp]
  · rw [if_neg (by simp [PerNs.is_none, ht])]
    simp [directNsSelect, PerNs.iter_items_first, ht]
  · rw [if_neg (by simp [PerNs.is_none, hv])]
    simp [directNsSelect, PerNs.iter_items_first, h0, hv]
  · rw [if_neg (by simp [PerNs.is_none, hm])]
    simp [directNsSelect, PerNs.iter_items_first, PerNs.take_macros, h0, h1, hm]

/-- Witness for C3: a link resolving in all three namespaces returns the
type-namespace candidate. -/
theorem C3_priority_order_witness :
    resolve_doc_path_on_ db3 "X" (AttrDefId.moduleId 0) none =
      some (DocLinkDef.moduleDef (ModuleDefId.adtId 3)) :=
  (C3_priority_order db3 0 "X" ⟨PathKind.plain, [Name.ident "X"]⟩
    (AttrDefId.moduleId 0) (by decide) (by decide)).1 (ModuleDefId.adtId 3)
    (by decide)

/-- C7: when the full-path parse fails, the tuple-field splitter splits the
text at its last `::`, requires the suffix to parse as a non-negative
integer and the prefix to parse as an ordinary path, and appends a
synthetic tuple-index segment; field resolution finds exactly the first
field with the matching tuple-index name; and end to end, such a path on a
struct whose associated-item searches come up empty resolves to the field
lookup on that struct. -/
theorem C7_tuple_field :
    (∀ (db : Db) (link : String), try_get_modpath db link = none →
      modpath_from_str db link =
        match rsplitOnceColons link with
        | none => none
        | some (base, suffix) =>
          match parseUsize suffix with
          | none => none
          | some idx =>
            match try_get_modpath db base with
            | none => none
            | some mp => some (mp.push_segment (Name.tupleField idx))) ∧
    (∀ (db : Db) (vd : VariantDef) (name : Name),
      resolve_field db vd name none =
        ((db.variant_fields vd).find? (fun f => db.field_name f = name)).map
          DocLinkDef.field) ∧
    (∀ (db : Db) (resolver : Resolver) (attr_id : AttrDefId) (link base suffix :
        String) (idx : Nat) (mp : ModPath) (ns : Option Namespace) (s : Nat),
      attrResolver db attr_id = some resolver →
      try_get_modpath db link = none →
      rsplitOnceColons link = some (base, suffix) →
      parseUsize suffix = some idx →
      try_get_modpath db base = some mp →
      (db.resolve_module_path_in_items resolver
        (mp.push_segment (Name.tupleField idx))).is_none = true →
      db.resolve_path_in_type_ns_fully resolver
        (Path.from_known_path_with_no_generic mp) =
        some (TypeNs.adtId (Adt.struct s)) →
      resolve_assoc_item db (db.adt_ty (Adt.struct s))
        (Name.tupleField idx) ns = none →
      resolve_impl_trait_item db resolver (db.adt_ty (Adt.struct s))
        (Name.tupleField idx) ns = none →
      db.as_adt (db.adt_ty (Adt.struct s)) = some (Adt.struct s) →
      resolve_doc_path_on_ db link attr_id ns =
        resolve_field db (VariantDef.struct s) (Name.tupleField idx) ns) := by
  refine ⟨fun db link h => ?_, fun db vd name => rfl,
    fun db resolver attr_id link base suffix idx mp ns s hres hfail hsplit
      hparse hbase hnone hty h1 h2 hadt => ?_⟩
  · unfold modpath_from_str
    rw [h]
    rfl
  · have hmp : modpath_from_str db link =
        some (mp.push_segment (Name.tupleField idx)) := by
      unfold modpath_from_str
      rw [hfail]
      simp [hsplit, hparse, hbase]
    rw [resolve_doc_path_on_eq db resolver link
      (mp.push_segment (Name.tupleField idx)) attr_id ns hres hmp,
      if_pos hnone]
    simp only [pop_push]
    unfold resolve_assoc_or_field
    rw [hty]
    show resolve_assoc_or_field_ty db resolver (db.adt_ty (Adt.struct s))
      (Name.tupleField idx) ns = _
    unfold resolve_assoc_or_field_ty
    rw [h1, h2, hadt]

/-- Witness for C7: on a two-field tuple struct `Point`, `Point::0` resolves
to the field with index 0, while the out-of-range `Point::5` and the
non-numeric `Point::x` resolve to nothing. -/
theorem C7_tuple_field_witness :
    resolve_doc_path_on_ db7 "Point::0" (AttrDefId.moduleId 0) none =
      some (DocLinkDef.field 70) ∧
    resolve_doc_path_on_ db7 "Point::5" (AttrDefId.moduleId 0) none = none ∧
    resolve_doc_path_on_ db7 "Point::x" (AttrDefId.moduleId 0) none = none := by
  refine ⟨?_, by decide, by decide⟩
  rw [C7_tuple_field.2.2 db7 0 (AttrDefId.moduleId 0) "Point::0" "Point" "0" 0
    ⟨PathKind.plain, [Name.ident "Point"]⟩ none 0 (by decide) (by decide)
    (by decide) (by decide) (by decide) (by decide) (by decide) (by decide)
    (by decide) (by decide)]
  decide

/-- C1 (amended): with a namespace filter supplied and a well-formed scope
index, every returned target's natural namespace equals the filter —
associated functions and constants only under a Value filter, associated
type aliases only under a Type filter, fields never under a Type or Macro
filter — except when member resolution went through a prefix resolving to a
trait: the trait branch performs no namespace check and returns its item
regardless of the filter. -/
theorem C1_namespace_fidelity (db : Db) (hwf : DbWF db) (link : String)
    (attr_id : AttrDefId) (n : Namespace) (d : DocLinkDef)
    (h : resolve_doc_path_on_ db link attr_id (some n) = some d) :
    docLinkNaturalNs d = n ∨ TraitPrefixTaken db link attr_id := by
  cases hres : attrResolver db attr_id with
  | none =>
    rw [(resolve_doc_path_on_none db link attr_id (some n)).1 hres] at h
    exact absurd h (by simp)
  | some resolver =>
    cases hmp : modpath_from_str db link with
    | none =>
      rw [(resolve_doc_path_on_none db link attr_id (some n)).2 hmp] at h
      exact absurd h (by simp)
    | some modpath =>
      rw [resolve_doc_path_on_eq db resolver link modpath attr_id (some n)
        hres hmp] at h
      by_cases hnone :
          (db.resolve_module_path_in_items resolver modpath).is_none = true
      · rw [if_pos hnone] at h
        split at h
        · exact absurd h (by simp)
        next last_name rest hpop =>
          rcases resolve_assoc_or_field_ns h with hns | ⟨t, ht⟩
          · exact Or.inl hns
          · exact Or.inr
              ⟨resolver, modpath, last_name, rest, t, hres, hmp, hnone, hpop, ht⟩
      · rw [if_neg hnone] at h
        obtain ⟨m, hm, rfl⟩ := Option.map_eq_some'.mp h
        left
        cases n
        · exact (hwf resolver modpath).1 m hm
        · exact (hwf resolver modpath).2 m hm
        · simp only [directNsSelect, PerNs.take_macros] at hm
          obtain ⟨mac, -, rfl⟩ := Option.map_eq_some'.mp hm
          rfl

/-- Counterexample for C1 as stated: with filter `Type` and a well-formed
scope index, a trait prefix returns the trait's associated function `f`,
whose natural namespace is `Value` — the trait branch never checks the
filter. -/
theorem C1_counterexample :
    resolve_doc_path_on_ db1 "T::f" (AttrDefId.moduleId 0)
        (some Namespace.types) =
      some (DocLinkDef.moduleDef (ModuleDefId.functionId 7)) ∧
    docLinkNaturalNs (DocLinkDef.moduleDef (ModuleDefId.functionId 7)) ≠
      Namespace.types ∧
    DbWF db1 :=
  ⟨by decide, by decide, db1_wf⟩

/-- Witness for C1: in the inherent-item scenario, the result under a Value
filter has natural namespace Value. -/
theorem C1_namespace_fidelity_witness :
    docLinkNaturalNs (DocLinkDef.moduleDef (ModuleDefId.functionId 1)) =
        Namespace.values ∨
      TraitPrefixTaken dbW1 "S::f" (AttrDefId.moduleId 0) :=
  C1_namespace_fidelity dbW1 dbW1_wf "S::f" (AttrDefId.moduleId 0)
    Namespace.values (DocLinkDef.moduleDef (ModuleDefId.functionId 1))
    (by decide)

end RA
